import Mathlib

/-!
Verification development for the regland genomics backend
(cross_species_expression_gwas).

This file shallowly embeds the conservation-matrix builder
(`create_conservation_heatmap_optimized` and `create_conservation_heatmap`
from `python_version/backend/regland_api/utils.py`), the region resolver
(`get_gene_region`), and the tissue-coverage classifier (the SQL CASE in
`get_tissue_coverage_stats`), and proves the documented properties.

Numeric modelling: Python's true division on ints/floats is embedded as
exact arithmetic on `ℚ`; record and region coordinates are rationals
(integers embed into ℚ, so all theorems cover the integer inputs the API
supplies).  The Python functions return dicts; they are embedded as
structures.  The early-return dict for an empty record list omits the
`normalized` and `tss_position` keys, so those fields are `Option`-valued
(`none` = key absent).
-/

/-- An enhancer record as consumed by the heatmap builders: the dict keys
`start`, `end`, `class` of the rows produced by `get_enhancers_in_region`. -/
structure Enh where
  start : ℚ
  «end» : ℚ
  «class» : String
  deriving DecidableEq, Repr, Inhabited

/-- One bin descriptor dict: `{'bin': i+1, 'start': .., 'end': .., 'center': ..}`. -/
structure Bin where
  bin : ℕ
  start : ℚ
  «end» : ℚ
  center : ℚ
  deriving DecidableEq, Repr

instance : Inhabited Bin := ⟨⟨0, 0, 0, 0⟩⟩

/-- A row of the `genes` table as queried by `get_gene_region`. -/
structure Gene where
  gene_id : ℕ
  symbol : String
  species_id : String
  chrom : String
  start : ℤ
  «end» : ℤ
  deriving DecidableEq, Repr

/-- The dict returned by `get_gene_region` on success. -/
structure GeneRegion where
  gene_id : ℕ
  symbol : String
  chrom : String
  start : ℤ
  «end» : ℤ
  tss : ℤ
  gene_start : ℤ
  gene_end : ℤ
  deriving DecidableEq, Repr

/-- The dict returned by the conservation-heatmap builders.  `normalized`
and `tss_position` are `Option`-wrapped because the early return for an
empty enhancer list omits those keys (`none` = key absent); the inner
`Option ℤ` of `tss_position` models `gene_data['tss'] if gene_data else None`. -/
structure Heatmap where
  bins : List Bin
  classes : List String
  matrix : List (List ℚ)
  region_start : ℚ
  region_end : ℚ
  nbins : ℕ
  normalized : Option Bool
  tss_position : Option (Option ℤ)
  deriving DecidableEq, Repr

/-- Python's `max(row) if row else 1`, the per-row normalization divisor. -/
def pyListMax : List ℚ → ℚ
  | [] => 1
  | v :: vs => vs.foldl max v

/-- `create_conservation_heatmap_optimized(enhancers, start, end,
enhancer_classes, nbins, normalize_rows, gene_data)` from
`python_version/backend/regland_api/utils.py`, lines 153-208. -/
def create_conservation_heatmap_optimized (enhancers : List Enh) (start «end» : ℚ)
    (enhancer_classes : List String) (nbins : ℕ) (normalize_rows : Bool)
    (gene_data : Option GeneRegion) : Heatmap :=
  if enhancers.isEmpty then
    { bins := [], classes := enhancer_classes, matrix := [],
      region_start := start, region_end := «end», nbins := nbins,
      normalized := none, tss_position := none }
  else
    let bin_width : ℚ := («end» - start) / (nbins : ℚ)
    let bin_edges : List ℚ := (List.range (nbins + 1)).map (fun (i : ℕ) => start + (i : ℚ) * bin_width)
    let bins : List Bin := (List.range nbins).map (fun i =>
      { bin := i + 1,
        start := bin_edges.getD i 0,
        «end» := bin_edges.getD (i + 1) 0,
        center := (bin_edges.getD i 0 + bin_edges.getD (i + 1) 0) / 2 })
    let matrix0 : List (List ℚ) := enhancer_classes.map (fun class_name =>
      let class_enhancers := enhancers.filter (fun enh => enh.«class» == class_name)
      (List.range nbins).map (fun i =>
        let bin_start := bin_edges.getD i 0
        let bin_end := bin_edges.getD (i + 1) 0
        ((class_enhancers.filter (fun enh =>
            decide (enh.«end» > bin_start) && decide (enh.start < bin_end))).length : ℚ)))
    let matrix : List (List ℚ) :=
      if normalize_rows then
        matrix0.map (fun row =>
          let max_val := pyListMax row
          row.map (fun val => if max_val > 0 then val / max_val else 0))
      else matrix0
    { bins := bins, classes := enhancer_classes, matrix := matrix,
      region_start := start, region_end := «end», nbins := nbins,
      normalized := some normalize_rows,
      tss_position := some (gene_data.map (fun gd => gd.tss)) }

/-- The binning/counting/normalization core of `create_conservation_heatmap`
(`python_version/backend/regland_api/utils.py`, lines 537-597).  The source
function first fetches `enhancers` from the database via
`get_enhancers_in_region` (an external collaborator); here the fetched
record list is a parameter and the remaining computation is embedded verbatim. -/
def create_conservation_heatmap (enhancers : List Enh) (start «end» : ℚ)
    (enhancer_classes : List String) (nbins : ℕ) (normalize_rows : Bool)
    (gene_data : Option GeneRegion) : Heatmap :=
  if enhancers.isEmpty then
    { bins := [], classes := enhancer_classes, matrix := [],
      region_start := start, region_end := «end», nbins := nbins,
      normalized := none, tss_position := none }
  else
    let bin_width : ℚ := («end» - start) / (nbins : ℚ)
    let bins : List Bin := (List.range nbins).map (fun (i : ℕ) =>
      let bin_start := start + (i : ℚ) * bin_width
      let bin_end := start + ((i : ℚ) + 1) * bin_width
      { bin := i + 1, start := bin_start, «end» := bin_end,
        center := (bin_start + bin_end) / 2 })
    let matrix0 : List (List ℚ) := enhancer_classes.map (fun class_name =>
      bins.map (fun bin_data =>
        ((enhancers.filter (fun enh =>
            enh.«class» == class_name
              && decide (enh.«end» > bin_data.start)
              && decide (enh.start < bin_data.«end»))).length : ℚ)))
    let matrix : List (List ℚ) :=
      if normalize_rows then
        matrix0.map (fun row =>
          let max_val := pyListMax row
          row.map (fun val => if max_val > 0 then val / max_val else 0))
      else matrix0
    { bins := bins, classes := enhancer_classes, matrix := matrix,
      region_start := start, region_end := «end», nbins := nbins,
      normalized := some normalize_rows,
      tss_position := some (gene_data.map (fun gd => gd.tss)) }

/-- ASCII upper-casing of one character, as SQL `UPPER` and Python
`str.upper()` act on the ASCII gene symbols stored in the `genes` table. -/
def pyUpperChar (c : Char) : Char :=
  if 'a' ≤ c ∧ c ≤ 'z' then Char.ofNat (c.toNat - 32) else c

/-- ASCII upper-casing of a string (`UPPER(...)` / `str.upper()`). -/
def pyUpper (s : String) : String := ⟨s.data.map pyUpperChar⟩

/-- `get_gene_region(gene_symbol, species_id, tss_kb)` from
`python_version/backend/regland_api/utils.py`, lines 428-455, with the
`genes` table passed explicitly.  The SQL `WHERE UPPER(symbol) = %s AND
species_id = %s ... LIMIT 1` with parameter `gene_symbol.upper()` is
embedded as `List.find?` over the table with an upper-cased comparison. -/
def get_gene_region (genes : List Gene) (gene_symbol : String)
    (species_id : String) (tss_kb : ℤ) : Option GeneRegion :=
  match genes.find? (fun g =>
      pyUpper g.symbol == pyUpper gene_symbol && g.species_id == species_id) with
  | none => none
  | some g =>
    let tss := g.start
    let half_window := tss_kb * 1000
    some { gene_id := g.gene_id, symbol := g.symbol, chrom := g.chrom,
           start := max 0 (tss - half_window), «end» := tss + half_window,
           tss := tss, gene_start := g.start, gene_end := g.«end» }

/-- The coverage-level step function: the SQL `CASE WHEN COUNT(*) < 100 THEN
'critical' WHEN COUNT(*) < 1000 THEN 'low' WHEN COUNT(*) < 10000 THEN
'medium' ELSE 'good' END` inside `get_tissue_coverage_stats`
(`backend/enhanced_utils_functions.py` lines 96-115 and
`backend/enhanced_queries.py` lines 121-140). -/
def classify_coverage (count : ℕ) : String :=
  if count < 100 then "critical"
  else if count < 1000 then "low"
  else if count < 10000 then "medium"
  else "good"

/-- Bin edge `i` for a region split into `nb` bins:
`start + i * (end - start) / nbins`. -/
def binEdge (s e : ℚ) (nb : ℕ) (i : ℕ) : ℚ := s + (i : ℚ) * ((e - s) / (nb : ℚ))

/-- Number of records of class `c` overlapping the half-open bin
`[bs, be)`: the per-record test `class == c AND end > bin_start AND
start < bin_end`. -/
def overlap_count (rs : List Enh) (c : String) (bs be : ℚ) : ℕ :=
  (rs.filter (fun enh =>
    enh.«class» == c && decide (enh.«end» > bs) && decide (enh.start < be))).length

/-- The bin descriptor produced for index `i`. -/
def mkBinD (s e : ℚ) (nb i : ℕ) : Bin :=
  { bin := i + 1, start := binEdge s e nb i, «end» := binEdge s e nb (i + 1),
    center := (binEdge s e nb i + binEdge s e nb (i + 1)) / 2 }

/-- The raw (un-normalized) count matrix: one row per class, one column per bin. -/
def rawMatrix (rs : List Enh) (s e : ℚ) (cl : List String) (nb : ℕ) : List (List ℚ) :=
  cl.map (fun c => (List.range nb).map (fun i =>
    (overlap_count rs c (binEdge s e nb i) (binEdge s e nb (i + 1)) : ℚ)))

/-- Row normalization: divide by the row's own maximum when it is positive. -/
def normRow (row : List ℚ) : List ℚ :=
  let max_val := pyListMax row
  row.map (fun val => if max_val > 0 then val / max_val else 0)

lemma edges_getD (s w : ℚ) (nb : ℕ) {i : ℕ} (h : i ≤ nb) :
    (((List.range (nb + 1)).map (fun (j : ℕ) => s + (j : ℚ) * w)).getD i 0)
      = s + (i : ℚ) * w := by
  rw [List.getD_eq_getElem _ _ (by simpa using Nat.lt_succ_of_le h)]
  simp

lemma opt_bins {rs : List Enh} (h : rs ≠ []) (s e : ℚ) (cl : List String) (nb : ℕ)
    (norm : Bool) (gd : Option GeneRegion) :
    (create_conservation_heatmap_optimized rs s e cl nb norm gd).bins
      = (List.range nb).map (mkBinD s e nb) := by
  rw [create_conservation_heatmap_optimized, if_neg (by simp [h])]
  refine List.map_congr_left (fun i hi => ?_)
  have hi' : i < nb := List.mem_range.mp hi
  simp only [mkBinD, binEdge,
    edges_getD s ((e - s) / (nb : ℚ)) nb (Nat.le_of_lt hi'),
    edges_getD s ((e - s) / (nb : ℚ)) nb (Nat.succ_le_of_lt hi')]

lemma opt_matrix_raw {rs : List Enh} (h : rs ≠ []) (s e : ℚ) (cl : List String) (nb : ℕ)
    (gd : Option GeneRegion) :
    (create_conservation_heatmap_optimized rs s e cl nb false gd).matrix
      = rawMatrix rs s e cl nb := by
  rw [create_conservation_heatmap_optimized, if_neg (by simp [h])]
  simp only [rawMatrix]
  refine List.map_congr_left (fun c _ => ?_)
  refine List.map_congr_left (fun i hi => ?_)
  have hi' : i < nb := List.mem_range.mp hi
  simp only [edges_getD s ((e - s) / (nb : ℚ)) nb (Nat.le_of_lt hi'),
    edges_getD s ((e - s) / (nb : ℚ)) nb (Nat.succ_le_of_lt hi'),
    List.filter_filter, overlap_count, binEdge]
  congr 2
  refine List.filter_congr (fun enh _ => ?_)
  push_cast
  cases h1 : (enh.«class» == c) <;>
    cases h2 : (decide (enh.«end» > s + (i : ℚ) * ((e - s) / (nb : ℚ)))) <;>
      simp_all

lemma opt_matrix_norm (rs : List Enh) (s e : ℚ) (cl : List String) (nb : ℕ)
    (gd : Option GeneRegion) :
    (create_conservation_heatmap_optimized rs s e cl nb true gd).matrix
      = (create_conservation_heatmap_optimized rs s e cl nb false gd).matrix.map normRow := by
  by_cases h : rs.isEmpty
  · simp [create_conservation_heatmap_optimized, h]
  · simp [create_conservation_heatmap_optimized, h, normRow]

lemma hm_bins {rs : List Enh} (h : rs ≠ []) (s e : ℚ) (cl : List String) (nb : ℕ)
    (norm : Bool) (gd : Option GeneRegion) :
    (create_conservation_heatmap rs s e cl nb norm gd).bins
      = (List.range nb).map (mkBinD s e nb) := by
  rw [create_conservation_heatmap, if_neg (by simp [h])]
  refine List.map_congr_left (fun i _ => ?_)
  simp only [mkBinD, binEdge, Bin.mk.injEq, true_and]
  constructor
  · push_cast
    ring
  · push_cast
    ring

lemma hm_matrix_raw {rs : List Enh} (h : rs ≠ []) (s e : ℚ) (cl : List String) (nb : ℕ)
    (gd : Option GeneRegion) :
    (create_conservation_heatmap rs s e cl nb false gd).matrix
      = rawMatrix rs s e cl nb := by
  rw [create_conservation_heatmap, if_neg (by simp [h])]
  simp only [rawMatrix]
  refine List.map_congr_left (fun c _ => ?_)
  rw [List.map_map]
  refine List.map_congr_left (fun i _ => ?_)
  simp only [Function.comp, overlap_count, binEdge]
  congr 2
  refine List.filter_congr (fun enh _ => ?_)
  have hc : ((i : ℚ) + 1) = (((i + 1 : ℕ)) : ℚ) := by push_cast; ring
  simp only [hc]

lemma hm_matrix_norm (rs : List Enh) (s e : ℚ) (cl : List String) (nb : ℕ)
    (gd : Option GeneRegion) :
    (create_conservation_heatmap rs s e cl nb true gd).matrix
      = (create_conservation_heatmap rs s e cl nb false gd).matrix.map normRow := by
  by_cases h : rs.isEmpty
  · simp [create_conservation_heatmap, h]
  · simp [create_conservation_heatmap, h, normRow]

lemma heatmap_ext {a b : Heatmap} (h₁ : a.bins = b.bins) (h₂ : a.classes = b.classes)
    (h₃ : a.matrix = b.matrix) (h₄ : a.region_start = b.region_start)
    (h₅ : a.region_end = b.region_end) (h₆ : a.nbins = b.nbins)
    (h₇ : a.normalized = b.normalized) (h₈ : a.tss_position = b.tss_position) : a = b := by
  cases a; cases b; simp_all

lemma opt_fields (rs : List Enh) (s e : ℚ) (cl : List String) (nb : ℕ)
    (norm : Bool) (gd : Option GeneRegion) :
    (create_conservation_heatmap_optimized rs s e cl nb norm gd).classes = cl
      ∧ (create_conservation_heatmap_optimized rs s e cl nb norm gd).region_start = s
      ∧ (create_conservation_heatmap_optimized rs s e cl nb norm gd).region_end = e
      ∧ (create_conservation_heatmap_optimized rs s e cl nb norm gd).nbins = nb := by
  by_cases h : rs.isEmpty <;> simp [create_conservation_heatmap_optimized, h]

lemma hm_fields (rs : List Enh) (s e : ℚ) (cl : List String) (nb : ℕ)
    (norm : Bool) (gd : Option GeneRegion) :
    (create_conservation_heatmap rs s e cl nb norm gd).classes = cl
      ∧ (create_conservation_heatmap rs s e cl nb norm gd).region_start = s
      ∧ (create_conservation_heatmap rs s e cl nb norm gd).region_end = e
      ∧ (create_conservation_heatmap rs s e cl nb norm gd).nbins = nb := by
  by_cases h : rs.isEmpty <;> simp [create_conservation_heatmap, h]

lemma opt_meta_fields (rs : List Enh) (s e : ℚ) (cl : List String) (nb : ℕ)
    (norm : Bool) (gd : Option GeneRegion) :
    (create_conservation_heatmap_optimized rs s e cl nb norm gd).normalized
        = (if rs.isEmpty then none else some norm)
      ∧ (create_conservation_heatmap_optimized rs s e cl nb norm gd).tss_position
        = (if rs.isEmpty then none else some (gd.map (fun g => g.tss))) := by
  by_cases h : rs.isEmpty <;> simp [create_conservation_heatmap_optimized, h]

lemma hm_meta_fields (rs : List Enh) (s e : ℚ) (cl : List String) (nb : ℕ)
    (norm : Bool) (gd : Option GeneRegion) :
    (create_conservation_heatmap rs s e cl nb norm gd).normalized
        = (if rs.isEmpty then none else some norm)
      ∧ (create_conservation_heatmap rs s e cl nb norm gd).tss_position
        = (if rs.isEmpty then none else some (gd.map (fun g => g.tss))) := by
  by_cases h : rs.isEmpty <;> simp [create_conservation_heatmap, h]

lemma heatmap_eq_opt (rs : List Enh) (s e : ℚ) (cl : List String) (nb : ℕ)
    (norm : Bool) (gd : Option GeneRegion) :
    create_conservation_heatmap rs s e cl nb norm gd
      = create_conservation_heatmap_optimized rs s e cl nb norm gd := by
  by_cases h : rs.isEmpty
  · rw [List.isEmpty_iff] at h
    subst h
    rfl
  · rw [Bool.not_eq_true, List.isEmpty_eq_false] at h
    refine heatmap_ext ?_ ?_ ?_ ?_ ?_ ?_ ?_ ?_
    · rw [hm_bins h, opt_bins h]
    · rw [(hm_fields rs s e cl nb norm gd).1, (opt_fields rs s e cl nb norm gd).1]
    · cases norm
      · rw [hm_matrix_raw h, opt_matrix_raw h]
      · rw [hm_matrix_norm, opt_matrix_norm, hm_matrix_raw h, opt_matrix_raw h]
    · rw [(hm_fields rs s e cl nb norm gd).2.1, (opt_fields rs s e cl nb norm gd).2.1]
    · rw [(hm_fields rs s e cl nb norm gd).2.2.1, (opt_fields rs s e cl nb norm gd).2.2.1]
    · rw [(hm_fields rs s e cl nb norm gd).2.2.2, (opt_fields rs s e cl nb norm gd).2.2.2]
    · rw [(hm_meta_fields rs s e cl nb norm gd).1, (opt_meta_fields rs s e cl nb norm gd).1]
    · rw [(hm_meta_fields rs s e cl nb norm gd).2, (opt_meta_fields rs s e cl nb norm gd).2]

lemma foldl_max_mem (v : ℚ) (vs : List ℚ) :
    vs.foldl max v = v ∨ vs.foldl max v ∈ vs := by
  induction vs generalizing v with
  | nil => exact Or.inl rfl
  | cons a l ih =>
    rw [List.foldl_cons]
    rcases ih (max v a) with h | h
    · rcases max_choice v a with hh | hh
      · exact Or.inl (by rw [h, hh])
      · exact Or.inr (by rw [h, hh]; exact List.mem_cons_self a l)
    · exact Or.inr (List.mem_cons_of_mem a h)

lemma le_foldl_max_init (v : ℚ) (vs : List ℚ) : v ≤ vs.foldl max v := by
  induction vs generalizing v with
  | nil => exact le_refl v
  | cons a l ih => exact le_trans (le_max_left v a) (ih (max v a))

lemma le_foldl_max {x v : ℚ} {vs : List ℚ} (h : x ∈ vs) : x ≤ vs.foldl max v := by
  induction vs generalizing v with
  | nil => cases h
  | cons a l ih =>
    rw [List.foldl_cons]
    rcases List.mem_cons.mp h with rfl | h'
    · exact le_trans (le_max_right v x) (le_foldl_max_init _ l)
    · exact ih h'

lemma pyListMax_mem {l : List ℚ} (h : l ≠ []) : pyListMax l ∈ l := by
  cases l with
  | nil => exact absurd rfl h
  | cons v vs =>
    rcases foldl_max_mem v vs with h' | h'
    · rw [pyListMax, h']
      exact List.mem_cons_self v vs
    · rw [pyListMax]
      exact List.mem_cons_of_mem v h'

lemma le_pyListMax {x : ℚ} {l : List ℚ} (h : x ∈ l) : x ≤ pyListMax l := by
  cases l with
  | nil => cases h
  | cons v vs =>
    rcases List.mem_cons.mp h with rfl | h'
    · exact le_foldl_max_init x vs
    · exact le_foldl_max h'

lemma rawMatrix_length (rs : List Enh) (s e : ℚ) (cl : List String) (nb : ℕ) :
    (rawMatrix rs s e cl nb).length = cl.length := by
  simp [rawMatrix]

lemma rawMatrix_row_length {rs : List Enh} {s e : ℚ} {cl : List String} {nb : ℕ}
    {row : List ℚ} (h : row ∈ rawMatrix rs s e cl nb) : row.length = nb := by
  obtain ⟨c, _, rfl⟩ := List.mem_map.mp h
  simp

lemma rawMatrix_mem_cast {rs : List Enh} {s e : ℚ} {cl : List String} {nb : ℕ}
    {row : List ℚ} (h : row ∈ rawMatrix rs s e cl nb) {v : ℚ} (hv : v ∈ row) :
    ∃ n : ℕ, v = (n : ℚ) := by
  obtain ⟨c, _, rfl⟩ := List.mem_map.mp h
  obtain ⟨i, _, rfl⟩ := List.mem_map.mp hv
  exact ⟨_, rfl⟩

lemma rawMatrix_nonneg {rs : List Enh} {s e : ℚ} {cl : List String} {nb : ℕ}
    {row : List ℚ} (h : row ∈ rawMatrix rs s e cl nb) {v : ℚ} (hv : v ∈ row) :
    0 ≤ v := by
  obtain ⟨n, rfl⟩ := rawMatrix_mem_cast h hv
  exact Nat.cast_nonneg n

lemma normRow_zero {row : List ℚ} (h : ∀ v ∈ row, v = 0) :
    ∀ v ∈ normRow row, v = 0 := by
  intro v hv
  obtain ⟨u, hu, rfl⟩ := List.mem_map.mp hv
  rcases lt_or_ge 0 (pyListMax row) with hm | hm
  · simp only [if_pos hm, h u hu, zero_div]
  · simp only [if_neg (not_lt.mpr hm)]

lemma normRow_bounds {row : List ℚ} (hnn : ∀ v ∈ row, 0 ≤ v) :
    ∀ v ∈ normRow row, 0 ≤ v ∧ v ≤ 1 := by
  intro v hv
  obtain ⟨u, hu, rfl⟩ := List.mem_map.mp hv
  by_cases hm : pyListMax row > 0
  · rw [if_pos hm]
    exact ⟨div_nonneg (hnn u hu) (le_of_lt hm), (div_le_one hm).mpr (le_pyListMax hu)⟩
  · rw [if_neg hm]
    exact ⟨le_refl 0, zero_le_one⟩

lemma normRow_pos {row : List ℚ} (hne : row ≠ []) (hnn : ∀ v ∈ row, 0 ≤ v)
    (hex : ∃ v ∈ row, v ≠ 0) :
    normRow row = row.map (fun v => v / pyListMax row)
      ∧ (∀ v ∈ normRow row, v ≤ 1) ∧ (1 : ℚ) ∈ normRow row := by
  obtain ⟨w, hw, hwne⟩ := hex
  have hm : 0 < pyListMax row :=
    lt_of_lt_of_le (lt_of_le_of_ne (hnn w hw) (Ne.symm hwne)) (le_pyListMax hw)
  refine ⟨?_, fun v hv => (normRow_bounds hnn v hv).2, ?_⟩
  · exact List.map_congr_left (fun u _ => if_pos hm)
  · refine List.mem_map.mpr ⟨pyListMax row, pyListMax_mem hne, ?_⟩
    rw [if_pos hm, div_self (ne_of_gt hm)]

/-- C8: the Region Resolver's gene lookup is case-insensitive (two query
symbols with the same upper-casing give the same result over any gene table),
and it returns `none` exactly when no gene in the table matches the
upper-cased symbol and the species — absence is a `none` result, never an
exception or a zero-valued region. -/
theorem gene_lookup_case_insensitive_and_absence :
    (∀ (genes : List Gene) (s t sp : String) (k : ℤ), pyUpper s = pyUpper t →
      get_gene_region genes s sp k = get_gene_region genes t sp k)
    ∧ (∀ (genes : List Gene) (s sp : String) (k : ℤ),
        get_gene_region genes s sp k = none
          ↔ ∀ g ∈ genes, ¬(pyUpper g.symbol = pyUpper s ∧ g.species_id = sp)) := by
  constructor
  · intro genes s t sp k h
    simp only [get_gene_region, h]
  · intro genes s sp k
    have hiff : get_gene_region genes s sp k = none
        ↔ genes.find? (fun g =>
            pyUpper g.symbol == pyUpper s && g.species_id == sp) = none := by
      unfold get_gene_region
      cases hf : genes.find? (fun g =>
          pyUpper g.symbol == pyUpper s && g.species_id == sp) <;> simp
    rw [hiff, List.find?_eq_none]
    constructor
    · intro h g hg
      have := h g hg
      simpa [Bool.and_eq_true, beq_iff_eq] using this
    · intro h g hg
      have := h g hg
      simpa [Bool.and_eq_true, beq_iff_eq] using this

/-- Witness for C8 at concrete inputs: looking up "bdnf" and "BDNF" over a
one-gene table gives the same result, and a symbol absent from the table
yields `none`. -/
theorem gene_lookup_case_insensitive_and_absence_witness :
    get_gene_region [⟨1, "BDNF", "human_hg38", "chr11", 27654893, 27722058⟩]
        "bdnf" "human_hg38" 100
      = get_gene_region [⟨1, "BDNF", "human_hg38", "chr11", 27654893, 27722058⟩]
        "BDNF" "human_hg38" 100
    ∧ get_gene_region [⟨1, "BDNF", "human_hg38", "chr11", 27654893, 27722058⟩]
        "SHH" "human_hg38" 100 = none := by
  constructor
  · exact gene_lookup_case_insensitive_and_absence.1
      [⟨1, "BDNF", "human_hg38", "chr11", 27654893, 27722058⟩]
      "bdnf" "BDNF" "human_hg38" 100 rfl
  · exact (gene_lookup_case_insensitive_and_absence.2
      [⟨1, "BDNF", "human_hg38", "chr11", 27654893, 27722058⟩]
      "SHH" "human_hg38" 100).mpr (by decide)

/-- C9: `classify_coverage` is a total step function on the fixed thresholds
100 / 1000 / 10000 returning exactly one of "critical", "low", "medium",
"good"; in particular 23 ↦ "critical", 999 ↦ "low", 10000 ↦ "good". -/
theorem classify_coverage_thresholds :
    (∀ n : ℕ,
      (n < 100 → classify_coverage n = "critical")
      ∧ (100 ≤ n → n < 1000 → classify_coverage n = "low")
      ∧ (1000 ≤ n → n < 10000 → classify_coverage n = "medium")
      ∧ (10000 ≤ n → classify_coverage n = "good")
      ∧ (classify_coverage n = "critical" ∨ classify_coverage n = "low"
          ∨ classify_coverage n = "medium" ∨ classify_coverage n = "good"))
    ∧ classify_coverage 23 = "critical"
    ∧ classify_coverage 999 = "low"
    ∧ classify_coverage 10000 = "good" := by
  refine ⟨fun n => ?_, rfl, rfl, rfl⟩
  unfold classify_coverage
  refine ⟨fun h => by rw [if_pos h], fun h1 h2 => ?_, fun h1 h2 => ?_, fun h => ?_, ?_⟩
  · rw [if_neg (by omega), if_pos h2]
  · rw [if_neg (by omega), if_neg (by omega), if_pos h2]
  · rw [if_neg (by omega), if_neg (by omega), if_neg (by omega)]
  · split_ifs <;> simp

/-- Witness for C9 at concrete counts, one per threshold band. -/
theorem classify_coverage_thresholds_witness :
    classify_coverage 23 = "critical" ∧ classify_coverage 500 = "low"
    ∧ classify_coverage 5000 = "medium" ∧ classify_coverage 20000 = "good" :=
  ⟨(classify_coverage_thresholds.1 23).1 (by omega),
   (classify_coverage_thresholds.1 500).2.1 (by omega) (by omega),
   (classify_coverage_thresholds.1 5000).2.2.1 (by omega) (by omega),
   (classify_coverage_thresholds.1 20000).2.2.2.1 (by omega)⟩

lemma normRow_length (row : List ℚ) : (normRow row).length = row.length := by
  simp [normRow]

lemma opt_matrix_length {rs : List Enh} (h : rs ≠ []) (s e : ℚ) (cl : List String)
    (nb : ℕ) (norm : Bool) (gd : Option GeneRegion) :
    (create_conservation_heatmap_optimized rs s e cl nb norm gd).matrix.length
      = cl.length := by
  cases norm
  · rw [opt_matrix_raw h, rawMatrix_length]
  · rw [opt_matrix_norm, List.length_map, opt_matrix_raw h, rawMatrix_length]

lemma opt_matrix_row_length {rs : List Enh} (h : rs ≠ []) (s e : ℚ) (cl : List String)
    (nb : ℕ) (norm : Bool) (gd : Option GeneRegion) {row : List ℚ}
    (hr : row ∈ (create_conservation_heatmap_optimized rs s e cl nb norm gd).matrix) :
    row.length = nb := by
  cases norm
  · rw [opt_matrix_raw h] at hr
    exact rawMatrix_row_length hr
  · rw [opt_matrix_norm, opt_matrix_raw h] at hr
    obtain ⟨row0, h0, rfl⟩ := List.mem_map.mp hr
    rw [normRow_length]
    exact rawMatrix_row_length h0

lemma opt_bins_length {rs : List Enh} (h : rs ≠ []) (s e : ℚ) (cl : List String)
    (nb : ℕ) (norm : Bool) (gd : Option GeneRegion) :
    (create_conservation_heatmap_optimized rs s e cl nb norm gd).bins.length = nb := by
  rw [opt_bins h]
  simp

lemma opt_empty (s e : ℚ) (cl : List String) (nb : ℕ) (norm : Bool)
    (gd : Option GeneRegion) :
    create_conservation_heatmap_optimized [] s e cl nb norm gd
      = { bins := [], classes := cl, matrix := [], region_start := s,
          region_end := e, nbins := nb, normalized := none,
          tss_position := none } := rfl

/-- C1 counterexample: with an empty record list the optimized builder
returns an EMPTY matrix (its early return), not a zero-filled matrix of
shape `(len(classes), nbins)` as the claim states. -/
theorem build_empty_records_not_zero_filled :
    (create_conservation_heatmap_optimized [] 0 1000 ["conserved", "gained"]
        4 false none).matrix = []
    ∧ (create_conservation_heatmap_optimized [] 0 1000 ["conserved", "gained"]
        4 false none).matrix.length ≠ 2 := by
  refine ⟨rfl, ?_⟩
  rw [opt_empty]
  decide

/-- C1 (amended): for a NON-EMPTY record list both builders return a matrix
with exactly `len(classes)` rows, each of `nbins` columns, and `nbins` bin
descriptors; for an empty record list both return an empty matrix together
with an empty bin list (the early return), not a zero-filled full shape. -/
theorem build_shape (rs : List Enh) (s e : ℚ) (cl : List String) (nb : ℕ)
    (norm : Bool) (gd : Option GeneRegion) :
    (rs ≠ [] →
      (create_conservation_heatmap_optimized rs s e cl nb norm gd).matrix.length = cl.length
      ∧ (∀ row ∈ (create_conservation_heatmap_optimized rs s e cl nb norm gd).matrix,
          row.length = nb)
      ∧ (create_conservation_heatmap_optimized rs s e cl nb norm gd).bins.length = nb
      ∧ (create_conservation_heatmap rs s e cl nb norm gd).matrix.length = cl.length
      ∧ (∀ row ∈ (create_conservation_heatmap rs s e cl nb norm gd).matrix,
          row.length = nb)
      ∧ (create_conservation_heatmap rs s e cl nb norm gd).bins.length = nb)
    ∧ (rs = [] →
      (create_conservation_heatmap_optimized rs s e cl nb norm gd).matrix = []
      ∧ (create_conservation_heatmap_optimized rs s e cl nb norm gd).bins = []
      ∧ (create_conservation_heatmap rs s e cl nb norm gd).matrix = []
      ∧ (create_conservation_heatmap rs s e cl nb norm gd).bins = []) := by
  constructor
  · intro h
    refine ⟨opt_matrix_length h s e cl nb norm gd,
      fun row hr => opt_matrix_row_length h s e cl nb norm gd hr,
      opt_bins_length h s e cl nb norm gd, ?_, ?_, ?_⟩
    · rw [heatmap_eq_opt]
      exact opt_matrix_length h s e cl nb norm gd
    · rw [heatmap_eq_opt]
      exact fun row hr => opt_matrix_row_length h s e cl nb norm gd hr
    · rw [heatmap_eq_opt]
      exact opt_bins_length h s e cl nb norm gd
  · rintro rfl
    exact ⟨rfl, rfl, rfl, rfl⟩

/-- Witness for C1 (amended) at concrete inputs: one record, one class,
four bins; and the empty-record early return. -/
theorem build_shape_witness :
    ((create_conservation_heatmap_optimized [⟨100, 300, "conserved"⟩] 0 1000
        ["conserved"] 4 false none).matrix.length = 1
      ∧ (∀ row ∈ (create_conservation_heatmap_optimized [⟨100, 300, "conserved"⟩] 0 1000
          ["conserved"] 4 false none).matrix, row.length = 4)
      ∧ (create_conservation_heatmap_optimized [⟨100, 300, "conserved"⟩] 0 1000
          ["conserved"] 4 false none).bins.length = 4
      ∧ (create_conservation_heatmap [⟨100, 300, "conserved"⟩] 0 1000
          ["conserved"] 4 false none).matrix.length = 1
      ∧ (∀ row ∈ (create_conservation_heatmap [⟨100, 300, "conserved"⟩] 0 1000
          ["conserved"] 4 false none).matrix, row.length = 4)
      ∧ (create_conservation_heatmap [⟨100, 300, "conserved"⟩] 0 1000
          ["conserved"] 4 false none).bins.length = 4)
    ∧ ((create_conservation_heatmap_optimized [] 0 500 ["conserved"] 3 true none).matrix = []
      ∧ (create_conservation_heatmap_optimized [] 0 500 ["conserved"] 3 true none).bins = []
      ∧ (create_conservation_heatmap [] 0 500 ["conserved"] 3 true none).matrix = []
      ∧ (create_conservation_heatmap [] 0 500 ["conserved"] 3 true none).bins = []) :=
  ⟨(build_shape [⟨100, 300, "conserved"⟩] 0 1000 ["conserved"] 4 false none).1
      (by simp),
   (build_shape [] 0 500 ["conserved"] 3 true none).2 rfl⟩

lemma overlap_count_append (rs rs' : List Enh) (c : String) (bs be : ℚ) :
    overlap_count (rs ++ rs') c bs be
      = overlap_count rs c bs be + overlap_count rs' c bs be := by
  simp [overlap_count, List.filter_append]

lemma rawMatrix_self_append (rs : List Enh) (s e : ℚ) (cl : List String) (nb : ℕ) :
    rawMatrix (rs ++ rs) s e cl nb
      = (rawMatrix rs s e cl nb).map (fun row => row.map (fun v => 2 * v)) := by
  simp only [rawMatrix, List.map_map, Function.comp_def]
  refine List.map_congr_left (fun c _ => ?_)
  refine List.map_congr_left (fun i _ => ?_)
  rw [overlap_count_append]
  push_cast
  ring

/-- C5: duplicating every record (running the builder on `rs ++ rs`) doubles
every cell of the un-normalized matrix, for both builders. -/
theorem build_duplicate_doubles (rs : List Enh) (s e : ℚ) (cl : List String)
    (nb : ℕ) (gd : Option GeneRegion) :
    (create_conservation_heatmap_optimized (rs ++ rs) s e cl nb false gd).matrix
      = (create_conservation_heatmap_optimized rs s e cl nb false gd).matrix.map
          (fun row => row.map (fun v => 2 * v))
    ∧ (create_conservation_heatmap (rs ++ rs) s e cl nb false gd).matrix
      = (create_conservation_heatmap rs s e cl nb false gd).matrix.map
          (fun row => row.map (fun v => 2 * v)) := by
  have hmain : (create_conservation_heatmap_optimized (rs ++ rs) s e cl nb false gd).matrix
      = (create_conservation_heatmap_optimized rs s e cl nb false gd).matrix.map
          (fun row => row.map (fun v => 2 * v)) := by
    cases rs with
    | nil => rfl
    | cons a l =>
      rw [opt_matrix_raw (by simp) s e cl nb gd,
        opt_matrix_raw (List.cons_ne_nil a l) s e cl nb gd]
      exact rawMatrix_self_append (a :: l) s e cl nb
  refine ⟨hmain, ?_⟩
  rw [heatmap_eq_opt, heatmap_eq_opt]
  exact hmain

/-- C6: the non-optimized and the optimized conservation-matrix builders are
behaviorally identical: for every record list, region bounds, class list,
`nbins ≥ 1` and normalize flag they return the same bins, matrix, and
summary fields (the entire result dict is equal). -/
theorem conservation_builders_equivalent (rs : List Enh) (s e : ℚ)
    (cl : List String) (nb : ℕ) (norm : Bool) (gd : Option GeneRegion)
    (_hnb : 1 ≤ nb) :
    create_conservation_heatmap rs s e cl nb norm gd
      = create_conservation_heatmap_optimized rs s e cl nb norm gd :=
  heatmap_eq_opt rs s e cl nb norm gd

/-- Witness for C6 at a concrete input. -/
theorem conservation_builders_equivalent_witness :
    create_conservation_heatmap [⟨100, 300, "conserved"⟩] 0 1000
        ["conserved", "gained"] 4 true none
      = create_conservation_heatmap_optimized [⟨100, 300, "conserved"⟩] 0 1000
        ["conserved", "gained"] 4 true none :=
  conservation_builders_equivalent [⟨100, 300, "conserved"⟩] 0 1000
    ["conserved", "gained"] 4 true none (by decide)

/-- C2: in the un-normalized build, cell `(c, i)` is exactly the number of
records whose class equals `classes[c]` and which overlap bin `i` in the
half-open sense (`record.end > bin[i].start` and `record.start < bin[i].end`),
for both builders; and in the spec's concrete example (region `[0, 1000)`,
4 bins, one "conserved" record `[100, 300)`) the matrix is `[[1, 1, 0, 0]]`:
the record is counted once in bin 0 and once in bin 1 and nowhere else. -/
theorem build_cell_counts :
    (∀ (rs : List Enh) (s e : ℚ) (cl : List String) (nb : ℕ)
        (gd : Option GeneRegion) (c i : ℕ), rs ≠ [] → c < cl.length → i < nb →
      ((create_conservation_heatmap_optimized rs s e cl nb false gd).matrix.getD c []).getD i 0
        = (overlap_count rs (cl.getD c "")
            (((create_conservation_heatmap_optimized rs s e cl nb false gd).bins.getD i default).start)
            (((create_conservation_heatmap_optimized rs s e cl nb false gd).bins.getD i default).«end») : ℚ))
    ∧ (∀ (rs : List Enh) (s e : ℚ) (cl : List String) (nb : ℕ)
        (gd : Option GeneRegion) (c i : ℕ), rs ≠ [] → c < cl.length → i < nb →
      ((create_conservation_heatmap rs s e cl nb false gd).matrix.getD c []).getD i 0
        = (overlap_count rs (cl.getD c "")
            (((create_conservation_heatmap rs s e cl nb false gd).bins.getD i default).start)
            (((create_conservation_heatmap rs s e cl nb false gd).bins.getD i default).«end») : ℚ))
    ∧ (create_conservation_heatmap_optimized [⟨100, 300, "conserved"⟩] 0 1000
        ["conserved"] 4 false none).matrix = [[1, 1, 0, 0]] := by
  have hmain : ∀ (rs : List Enh) (s e : ℚ) (cl : List String) (nb : ℕ)
      (gd : Option GeneRegion) (c i : ℕ), rs ≠ [] → c < cl.length → i < nb →
      ((create_conservation_heatmap_optimized rs s e cl nb false gd).matrix.getD c []).getD i 0
        = (overlap_count rs (cl.getD c "")
            (((create_conservation_heatmap_optimized rs s e cl nb false gd).bins.getD i default).start)
            (((create_conservation_heatmap_optimized rs s e cl nb false gd).bins.getD i default).«end») : ℚ) := by
    intro rs s e cl nb gd c i hrs hc hi
    rw [opt_matrix_raw hrs, opt_bins hrs]
    rw [List.getD_eq_getElem (rawMatrix rs s e cl nb) [] (by rw [rawMatrix_length]; exact hc)]
    rw [List.getD_eq_getElem cl "" hc]
    simp only [rawMatrix, List.getElem_map]
    rw [List.getD_eq_getElem _ (0 : ℚ) (by simpa using hi)]
    rw [List.getD_eq_getElem _ (default : Bin) (by simpa using hi)]
    simp only [List.getElem_map, List.getElem_range, mkBinD]
  refine ⟨hmain, ?_, ?_⟩
  · intro rs s e cl nb gd c i hrs hc hi
    rw [heatmap_eq_opt]
    exact hmain rs s e cl nb gd c i hrs hc hi
  · norm_num [create_conservation_heatmap_optimized, List.range_succ, List.filter]

/-- Witness for C2 at the spec's example: cell (0, 1) of the one-class
matrix equals the overlap count against bin 1. -/
theorem build_cell_counts_witness :
    ((create_conservation_heatmap_optimized [⟨100, 300, "conserved"⟩] 0 1000
        ["conserved"] 4 false none).matrix.getD 0 []).getD 1 0
      = (overlap_count [⟨100, 300, "conserved"⟩] (["conserved"].getD 0 "")
          (((create_conservation_heatmap_optimized [⟨100, 300, "conserved"⟩] 0 1000
              ["conserved"] 4 false none).bins.getD 1 default).start)
          (((create_conservation_heatmap_optimized [⟨100, 300, "conserved"⟩] 0 1000
              ["conserved"] 4 false none).bins.getD 1 default).«end») : ℚ) :=
  build_cell_counts.1 [⟨100, 300, "conserved"⟩] 0 1000 ["conserved"] 4 none 0 1
    (by simp) (by decide) (by decide)

/-- C3 counterexample: with an empty record list the builder's early return
yields an EMPTY bin list for region `[0, 1000)` and `nbins = 4`, so the
returned bins are not the 4-bin partition the claim asserts for every
region and `nbins ≥ 1`. -/
theorem build_empty_records_no_bins :
    (create_conservation_heatmap_optimized [] 0 1000 ["conserved"] 4 false none).bins = []
    ∧ (create_conservation_heatmap_optimized [] 0 1000 ["conserved"] 4 false none).bins.length ≠ 4 := by
  refine ⟨rfl, ?_⟩
  rw [opt_empty]
  decide

/-- C3 (amended): for a NON-EMPTY record list and `nbins ≥ 1`, the bins of
both builders are the equal-width partition `start + i * (end - start) / nbins`:
bin `i` spans `[edge i, edge (i+1))`, the first bin starts at `region_start`,
the last bin ends at `region_end`, and consecutive bins are contiguous;
with an empty record list the early return yields no bins at all. -/
theorem build_bins_partition (rs : List Enh) (s e : ℚ) (cl : List String)
    (nb : ℕ) (norm : Bool) (gd : Option GeneRegion) (hrs : rs ≠ []) (hnb : 1 ≤ nb) :
    (create_conservation_heatmap_optimized rs s e cl nb norm gd).bins.length = nb
    ∧ (∀ i, i < nb →
      ((create_conservation_heatmap_optimized rs s e cl nb norm gd).bins.getD i default).start
          = s + (i : ℚ) * ((e - s) / (nb : ℚ))
        ∧ ((create_conservation_heatmap_optimized rs s e cl nb norm gd).bins.getD i default).«end»
          = s + ((i : ℚ) + 1) * ((e - s) / (nb : ℚ)))
    ∧ ((create_conservation_heatmap_optimized rs s e cl nb norm gd).bins.getD 0 default).start = s
    ∧ ((create_conservation_heatmap_optimized rs s e cl nb norm gd).bins.getD (nb - 1) default).«end» = e
    ∧ (∀ i, i + 1 < nb →
      ((create_conservation_heatmap_optimized rs s e cl nb norm gd).bins.getD i default).«end»
        = ((create_conservation_heatmap_optimized rs s e cl nb norm gd).bins.getD (i + 1) default).start)
    ∧ (create_conservation_heatmap rs s e cl nb norm gd).bins
      = (create_conservation_heatmap_optimized rs s e cl nb norm gd).bins := by
  have hgetD : ∀ i, i < nb →
      (create_conservation_heatmap_optimized rs s e cl nb norm gd).bins.getD i default
        = mkBinD s e nb i := by
    intro i hi
    rw [opt_bins hrs]
    rw [List.getD_eq_getElem _ (default : Bin) (by simpa using hi)]
    simp only [List.getElem_map, List.getElem_range]
  have hnbq : ((nb : ℚ)) ≠ 0 := Nat.cast_ne_zero.mpr (by omega)
  refine ⟨opt_bins_length hrs s e cl nb norm gd, ?_, ?_, ?_, ?_, ?_⟩
  · intro i hi
    rw [hgetD i hi]
    constructor
    · simp [mkBinD, binEdge]
    · simp only [mkBinD, binEdge]
      push_cast
      ring
  · rw [hgetD 0 (by omega)]
    simp [mkBinD, binEdge]
  · rw [hgetD (nb - 1) (by omega)]
    simp only [mkBinD, binEdge]
    rw [Nat.sub_add_cancel hnb, mul_div_cancel₀ (e - s) hnbq]
    ring
  · intro i hi
    rw [hgetD i (by omega), hgetD (i + 1) hi]
    simp only [mkBinD, binEdge]
  · rw [heatmap_eq_opt]

/-- Witness for C3 (amended) at a concrete input: one record, region
`[0, 1000)`, 4 bins. -/
theorem build_bins_partition_witness :
    (create_conservation_heatmap_optimized [⟨100, 300, "conserved"⟩] 0 1000
        ["conserved"] 4 false none).bins.length = 4
    ∧ (∀ i, i < 4 →
      ((create_conservation_heatmap_optimized [⟨100, 300, "conserved"⟩] 0 1000
          ["conserved"] 4 false none).bins.getD i default).start
          = 0 + (i : ℚ) * ((1000 - 0) / ((4 : ℕ) : ℚ))
        ∧ ((create_conservation_heatmap_optimized [⟨100, 300, "conserved"⟩] 0 1000
          ["conserved"] 4 false none).bins.getD i default).«end»
          = 0 + ((i : ℚ) + 1) * ((1000 - 0) / ((4 : ℕ) : ℚ)))
    ∧ ((create_conservation_heatmap_optimized [⟨100, 300, "conserved"⟩] 0 1000
        ["conserved"] 4 false none).bins.getD 0 default).start = 0
    ∧ ((create_conservation_heatmap_optimized [⟨100, 300, "conserved"⟩] 0 1000
        ["conserved"] 4 false none).bins.getD (4 - 1) default).«end» = 1000
    ∧ (∀ i, i + 1 < 4 →
      ((create_conservation_heatmap_optimized [⟨100, 300, "conserved"⟩] 0 1000
          ["conserved"] 4 false none).bins.getD i default).«end»
        = ((create_conservation_heatmap_optimized [⟨100, 300, "conserved"⟩] 0 1000
          ["conserved"] 4 false none).bins.getD (i + 1) default).start)
    ∧ (create_conservation_heatmap [⟨100, 300, "conserved"⟩] 0 1000
        ["conserved"] 4 false none).bins
      = (create_conservation_heatmap_optimized [⟨100, 300, "conserved"⟩] 0 1000
        ["conserved"] 4 false none).bins :=
  build_bins_partition [⟨100, 300, "conserved"⟩] 0 1000 ["conserved"] 4 false none
    (by simp) (by decide)

/-- C4: with `normalize_rows` set, each row of the result is the
corresponding un-normalized row divided by that row's own maximum: a row
whose entries are all zero stays all zero (no division happens), and a row
containing a non-zero count is scaled entry-wise by its maximum, so all its
entries are ≤ 1 and the value 1 is attained. -/
theorem build_normalization (rs : List Enh) (s e : ℚ) (cl : List String)
    (nb : ℕ) (gd : Option GeneRegion) (i : ℕ)
    (hi : i < (create_conservation_heatmap_optimized rs s e cl nb true gd).matrix.length) :
    ((∀ v ∈ (create_conservation_heatmap_optimized rs s e cl nb false gd).matrix.getD i [], v = 0) →
      ∀ v ∈ (create_conservation_heatmap_optimized rs s e cl nb true gd).matrix.getD i [], v = 0)
    ∧ ((∃ v ∈ (create_conservation_heatmap_optimized rs s e cl nb false gd).matrix.getD i [], v ≠ 0) →
      (create_conservation_heatmap_optimized rs s e cl nb true gd).matrix.getD i []
        = ((create_conservation_heatmap_optimized rs s e cl nb false gd).matrix.getD i []).map
            (fun v => v / pyListMax
              ((create_conservation_heatmap_optimized rs s e cl nb false gd).matrix.getD i []))
      ∧ (∀ v ∈ (create_conservation_heatmap_optimized rs s e cl nb true gd).matrix.getD i [], v ≤ 1)
      ∧ (1 : ℚ) ∈ (create_conservation_heatmap_optimized rs s e cl nb true gd).matrix.getD i []) := by
  rcases eq_or_ne rs [] with rfl | hrs
  · exfalso
    rw [opt_empty] at hi
    simp at hi
  · have hfalse : (create_conservation_heatmap_optimized rs s e cl nb false gd).matrix
        = rawMatrix rs s e cl nb := opt_matrix_raw hrs s e cl nb gd
    have htrue : (create_conservation_heatmap_optimized rs s e cl nb true gd).matrix
        = (rawMatrix rs s e cl nb).map normRow := by
      rw [opt_matrix_norm, hfalse]
    have hlen : i < (rawMatrix rs s e cl nb).length := by
      rw [htrue, List.length_map] at hi
      exact hi
    have hrow1 : (create_conservation_heatmap_optimized rs s e cl nb true gd).matrix.getD i []
        = normRow ((rawMatrix rs s e cl nb).getD i []) := by
      rw [htrue, List.getD_eq_getElem _ _ (by simpa using hlen), List.getElem_map,
        List.getD_eq_getElem _ _ hlen]
    have hmem0 : (rawMatrix rs s e cl nb).getD i [] ∈ rawMatrix rs s e cl nb := by
      rw [List.getD_eq_getElem _ _ hlen]
      exact List.getElem_mem hlen
    have hnn : ∀ v ∈ (rawMatrix rs s e cl nb).getD i [], 0 ≤ v :=
      fun v hv => rawMatrix_nonneg hmem0 hv
    constructor
    · intro hz v hv
      rw [hfalse] at hz
      rw [hrow1] at hv
      exact normRow_zero hz v hv
    · intro hex
      rw [hfalse] at hex
      obtain ⟨w, hw, hwne⟩ := hex
      have hne : (rawMatrix rs s e cl nb).getD i [] ≠ [] := by
        intro hemp
        rw [hemp] at hw
        cases hw
      obtain ⟨hmap, hle, hone⟩ := normRow_pos hne hnn ⟨w, hw, hwne⟩
      refine ⟨?_, ?_, ?_⟩
      · rw [hrow1, hfalse, hmap]
      · intro v hv
        rw [hrow1] at hv
        exact hle v hv
      · rw [hrow1]
        exact hone

/-- Witness for C4 at a concrete input: the single row `[1, 1, 0, 0]`
contains a non-zero count, so normalization divides it by its maximum 1,
every entry is ≤ 1, and 1 is attained. -/
theorem build_normalization_witness :
    (create_conservation_heatmap_optimized [⟨100, 300, "conserved"⟩] 0 1000
        ["conserved"] 4 true none).matrix.getD 0 []
      = ((create_conservation_heatmap_optimized [⟨100, 300, "conserved"⟩] 0 1000
          ["conserved"] 4 false none).matrix.getD 0 []).map
          (fun v => v / pyListMax
            ((create_conservation_heatmap_optimized [⟨100, 300, "conserved"⟩] 0 1000
              ["conserved"] 4 false none).matrix.getD 0 []))
    ∧ (∀ v ∈ (create_conservation_heatmap_optimized [⟨100, 300, "conserved"⟩] 0 1000
        ["conserved"] 4 true none).matrix.getD 0 [], v ≤ 1)
    ∧ (1 : ℚ) ∈ (create_conservation_heatmap_optimized [⟨100, 300, "conserved"⟩] 0 1000
        ["conserved"] 4 true none).matrix.getD 0 [] := by
  have h0 : (create_conservation_heatmap_optimized [⟨100, 300, "conserved"⟩] 0 1000
      ["conserved"] 4 false none).matrix = [[1, 1, 0, 0]] := by
    norm_num [create_conservation_heatmap_optimized, List.range_succ, List.filter]
  refine (build_normalization [⟨100, 300, "conserved"⟩] 0 1000 ["conserved"] 4 none 0
      ?_).2 ?_
  · rw [opt_matrix_norm, h0]
    simp
  · rw [h0]
    exact ⟨1, by norm_num, one_ne_zero⟩

/-- C10: every cell of the matrix returned by either builder is
non-negative, and when `normalize_rows` is set every cell is at most 1. -/
theorem build_matrix_bounds (rs : List Enh) (s e : ℚ) (cl : List String)
    (nb : ℕ) (norm : Bool) (gd : Option GeneRegion) :
    (∀ row ∈ (create_conservation_heatmap_optimized rs s e cl nb norm gd).matrix,
      ∀ v ∈ row, 0 ≤ v ∧ (norm = true → v ≤ 1))
    ∧ (∀ row ∈ (create_conservation_heatmap rs s e cl nb norm gd).matrix,
      ∀ v ∈ row, 0 ≤ v ∧ (norm = true → v ≤ 1)) := by
  have hopt : ∀ row ∈ (create_conservation_heatmap_optimized rs s e cl nb norm gd).matrix,
      ∀ v ∈ row, 0 ≤ v ∧ (norm = true → v ≤ 1) := by
    intro row hr v hv
    rcases eq_or_ne rs [] with rfl | hrs
    · rw [opt_empty] at hr
      cases hr
    · cases norm
      · rw [opt_matrix_raw hrs] at hr
        exact ⟨rawMatrix_nonneg hr hv, fun h => by cases h⟩
      · rw [opt_matrix_norm, opt_matrix_raw hrs] at hr
        obtain ⟨row0, h0, rfl⟩ := List.mem_map.mp hr
        have hb := normRow_bounds (fun u hu => rawMatrix_nonneg h0 hu) v hv
        exact ⟨hb.1, fun _ => hb.2⟩
  refine ⟨hopt, ?_⟩
  intro row hr
  rw [heatmap_eq_opt] at hr
  exact hopt row hr

/-- Witness for C10 at a concrete input: the entry 1 of the normalized
matrix `[[1, 1, 0, 0]]` is non-negative and at most 1. -/
theorem build_matrix_bounds_witness :
    0 ≤ (1 : ℚ) ∧ (true = true → (1 : ℚ) ≤ 1) := by
  have h0 : (create_conservation_heatmap_optimized [⟨100, 300, "conserved"⟩] 0 1000
      ["conserved"] 4 false none).matrix = [[1, 1, 0, 0]] := by
    norm_num [create_conservation_heatmap_optimized, List.range_succ, List.filter]
  have h1 : (create_conservation_heatmap_optimized [⟨100, 300, "conserved"⟩] 0 1000
      ["conserved"] 4 true none).matrix = [normRow [1, 1, 0, 0]] := by
    rw [opt_matrix_norm, h0]
    rfl
  refine (build_matrix_bounds [⟨100, 300, "conserved"⟩] 0 1000 ["conserved"] 4 true none).1
    (normRow [1, 1, 0, 0]) ?_ 1 ?_
  · rw [h1]
    exact List.mem_singleton.mpr rfl
  · have : pyListMax [1, 1, 0, 0] = (1 : ℚ) := by
      norm_num [pyListMax]
    norm_num [normRow, this]

/-- Checked division: errors (as Python would raise `ZeroDivisionError`)
when the divisor is zero, otherwise returns the quotient. -/
def qdivE (a b : ℚ) : Except String ℚ :=
  if b = 0 then Except.error "division by zero" else Except.ok (a / b)

/-- Error-propagating map, used to thread checked divisions through the
builder's list computations. -/
def mapME {α β : Type} (f : α → Except String β) : List α → Except String (List β)
  | [] => Except.ok []
  | a :: l => (f a).bind (fun b => (mapME f l).bind (fun bs => Except.ok (b :: bs)))

lemma ok_bind {α β : Type} (a : α) (f : α → Except String β) :
    (Except.ok a).bind f = f a := rfl

lemma mapME_ok {α β : Type} (f : α → Except String β) (g : α → β) (l : List α)
    (h : ∀ a ∈ l, f a = Except.ok (g a)) : mapME f l = Except.ok (l.map g) := by
  induction l with
  | nil => rfl
  | cons a l ih =>
    rw [mapME, h a (List.mem_cons_self a l),
      ih (fun x hx => h x (List.mem_cons_of_mem a hx))]
    rfl

/-- The bin-descriptor computation with its center division checked. -/
def checkedBin (bin_edges : List ℚ) (i : ℕ) : Except String Bin :=
  (qdivE (bin_edges.getD i 0 + bin_edges.getD (i + 1) 0) 2).bind (fun center =>
    Except.ok { bin := i + 1, start := bin_edges.getD i 0,
                «end» := bin_edges.getD (i + 1) 0, center := center })

/-- The bin descriptor the checked computation produces. -/
def okBin (bin_edges : List ℚ) (i : ℕ) : Bin :=
  { bin := i + 1, start := bin_edges.getD i 0, «end» := bin_edges.getD (i + 1) 0,
    center := (bin_edges.getD i 0 + bin_edges.getD (i + 1) 0) / 2 }

lemma checkedBin_ok (bin_edges : List ℚ) (i : ℕ) :
    checkedBin bin_edges i = Except.ok (okBin bin_edges i) := by
  rw [checkedBin, qdivE, if_neg (by norm_num : (2 : ℚ) ≠ 0)]
  rfl

/-- One normalized value with its division checked: `val / max_val if
max_val > 0 else 0`. -/
def checkedNormVal (max_val val : ℚ) : Except String ℚ :=
  if max_val > 0 then qdivE val max_val else Except.ok 0

lemma checkedNormVal_ok (m v : ℚ) :
    checkedNormVal m v = Except.ok (if m > 0 then v / m else 0) := by
  by_cases hm : m > 0
  · rw [checkedNormVal, if_pos hm, qdivE, if_neg (ne_of_gt hm), if_pos hm]
  · rw [checkedNormVal, if_neg hm, if_neg hm]

/-- One row of checked normalization. -/
def checkedNormRow (row : List ℚ) : Except String (List ℚ) :=
  mapME (checkedNormVal (pyListMax row)) row

lemma checkedNormRow_ok (row : List ℚ) :
    checkedNormRow row = Except.ok (normRow row) := by
  unfold checkedNormRow normRow
  exact mapME_ok _ _ _ (fun v _ => checkedNormVal_ok _ v)

/-- The un-normalized cell counts over explicit bin edges, exactly the
`matrix0` computation of the optimized builder. -/
def rawCells (enhancers : List Enh) (enhancer_classes : List String)
    (bin_edges : List ℚ) (nbins : ℕ) : List (List ℚ) :=
  enhancer_classes.map (fun class_name =>
    (List.range nbins).map (fun i =>
      (((enhancers.filter (fun enh => enh.«class» == class_name)).filter (fun enh =>
          decide (enh.«end» > bin_edges.getD i 0)
            && decide (enh.start < bin_edges.getD (i + 1) 0))).length : ℚ)))

/-- `create_conservation_heatmap_optimized` with every division it executes
routed through `qdivE`: the bin-width division by `nbins`, the per-bin
center division by 2, and the guarded per-value normalization division by
the row maximum.  An error outcome models a Python `ZeroDivisionError`. -/
def create_conservation_heatmap_optimized_checked (enhancers : List Enh)
    (start «end» : ℚ) (enhancer_classes : List String) (nbins : ℕ)
    (normalize_rows : Bool) (gene_data : Option GeneRegion) : Except String Heatmap :=
  if enhancers.isEmpty then
    Except.ok
      { bins := [], classes := enhancer_classes, matrix := [],
        region_start := start, region_end := «end», nbins := nbins,
        normalized := none, tss_position := none }
  else
    (qdivE («end» - start) (nbins : ℚ)).bind (fun bin_width =>
      (mapME (checkedBin ((List.range (nbins + 1)).map
          (fun (j : ℕ) => start + (j : ℚ) * bin_width))) (List.range nbins)).bind (fun bins =>
        (if normalize_rows then
            mapME checkedNormRow (rawCells enhancers enhancer_classes
              ((List.range (nbins + 1)).map (fun (j : ℕ) => start + (j : ℚ) * bin_width)) nbins)
          else
            Except.ok (rawCells enhancers enhancer_classes
              ((List.range (nbins + 1)).map (fun (j : ℕ) => start + (j : ℚ) * bin_width)) nbins)).bind
          (fun matrix =>
            Except.ok
              { bins := bins, classes := enhancer_classes, matrix := matrix,
                region_start := start, region_end := «end», nbins := nbins,
                normalized := some normalize_rows,
                tss_position := some (gene_data.map (fun gd => gd.tss)) })))

lemma okBin_eq {s e : ℚ} {nb i : ℕ} (hi : i < nb) :
    okBin ((List.range (nb + 1)).map (fun (j : ℕ) => s + (j : ℚ) * ((e - s) / (nb : ℚ)))) i
      = mkBinD s e nb i := by
  simp only [okBin, mkBinD, binEdge,
    edges_getD s ((e - s) / (nb : ℚ)) nb (Nat.le_of_lt hi),
    edges_getD s ((e - s) / (nb : ℚ)) nb (Nat.succ_le_of_lt hi)]

lemma rawCells_eq (rs : List Enh) (s e : ℚ) (cl : List String) (nb : ℕ) :
    rawCells rs cl ((List.range (nb + 1)).map
        (fun (j : ℕ) => s + (j : ℚ) * ((e - s) / (nb : ℚ)))) nb
      = rawMatrix rs s e cl nb := by
  simp only [rawCells, rawMatrix]
  refine List.map_congr_left (fun c _ => ?_)
  refine List.map_congr_left (fun i hi => ?_)
  have hi' : i < nb := List.mem_range.mp hi
  simp only [edges_getD s ((e - s) / (nb : ℚ)) nb (Nat.le_of_lt hi'),
    edges_getD s ((e - s) / (nb : ℚ)) nb (Nat.succ_le_of_lt hi'),
    List.filter_filter, overlap_count, binEdge]
  congr 2
  refine List.filter_congr (fun enh _ => ?_)
  cases h1 : (enh.«class» == c) <;>
    cases h2 : (decide (enh.«end» > s + (i : ℚ) * ((e - s) / (nb : ℚ)))) <;>
      simp_all

lemma opt_canonical {rs : List Enh} (hrs : rs ≠ []) (s e : ℚ) (cl : List String)
    (nb : ℕ) (norm : Bool) (gd : Option GeneRegion) :
    create_conservation_heatmap_optimized rs s e cl nb norm gd
      = { bins := (List.range nb).map (mkBinD s e nb), classes := cl,
          matrix := if norm then (rawMatrix rs s e cl nb).map normRow
            else rawMatrix rs s e cl nb,
          region_start := s, region_end := e, nbins := nb,
          normalized := some norm, tss_position := some (gd.map (fun g => g.tss)) } := by
  have hemp : rs.isEmpty = false := by
    rw [List.isEmpty_eq_false]
    exact hrs
  refine heatmap_ext ?_ ?_ ?_ ?_ ?_ ?_ ?_ ?_
  · rw [opt_bins hrs]
  · exact (opt_fields rs s e cl nb norm gd).1
  · cases norm
    · rw [opt_matrix_raw hrs]
      rfl
    · rw [opt_matrix_norm, opt_matrix_raw hrs]
      rfl
  · exact (opt_fields rs s e cl nb norm gd).2.1
  · exact (opt_fields rs s e cl nb norm gd).2.2.1
  · exact (opt_fields rs s e cl nb norm gd).2.2.2
  · rw [(opt_meta_fields rs s e cl nb norm gd).1, hemp]
    rfl
  · rw [(opt_meta_fields rs s e cl nb norm gd).2, hemp]
    rfl

/-- C7: under the stated preconditions (`region_end > region_start`,
`nbins ≥ 1`, non-empty class list) the checked builder — which routes every
division the optimized builder executes through a zero-divisor check —
never reaches an error outcome: it returns `ok` of exactly the plain
builder's result for every input.  (The computation is a pure Lean function
of its arguments: it performs no I/O.) -/
theorem build_checked_no_error (rs : List Enh) (s e : ℚ) (cl : List String)
    (nb : ℕ) (norm : Bool) (gd : Option GeneRegion)
    (hnb : 1 ≤ nb) (_hse : s < e) (_hcl : cl ≠ []) :
    create_conservation_heatmap_optimized_checked rs s e cl nb norm gd
      = Except.ok (create_conservation_heatmap_optimized rs s e cl nb norm gd) := by
  by_cases h : rs.isEmpty
  · rw [create_conservation_heatmap_optimized_checked, if_pos h,
      create_conservation_heatmap_optimized, if_pos h]
  · have hrs : rs ≠ [] := by
      simpa [List.isEmpty_iff] using h
    have hnbq : ((nb : ℚ)) ≠ 0 := Nat.cast_ne_zero.mpr (by omega)
    rw [create_conservation_heatmap_optimized_checked, if_neg (by simp [hrs]),
      qdivE, if_neg hnbq]
    simp only [ok_bind]
    rw [mapME_ok
      (checkedBin ((List.range (nb + 1)).map
        (fun (j : ℕ) => s + (j : ℚ) * ((e - s) / (nb : ℚ)))))
      (okBin ((List.range (nb + 1)).map
        (fun (j : ℕ) => s + (j : ℚ) * ((e - s) / (nb : ℚ)))))
      (List.range nb)
      (fun i _ => checkedBin_ok _ i)]
    simp only [ok_bind]
    rw [opt_canonical hrs]
    cases norm
    · simp only [Bool.false_eq_true, if_false, ok_bind]
      refine congrArg Except.ok (heatmap_ext ?_ rfl ?_ rfl rfl rfl rfl rfl)
      · exact List.map_congr_left (fun i hi => okBin_eq (List.mem_range.mp hi))
      · exact rawCells_eq rs s e cl nb
    · simp only [eq_self_iff_true, if_true]
      rw [mapME_ok checkedNormRow normRow _ (fun row _ => checkedNormRow_ok row)]
      simp only [ok_bind]
      refine congrArg Except.ok (heatmap_ext ?_ rfl ?_ rfl rfl rfl rfl rfl)
      · exact List.map_congr_left (fun i hi => okBin_eq (List.mem_range.mp hi))
      · rw [rawCells_eq rs s e cl nb]

/-- Witness for C7 at a concrete input satisfying the preconditions. -/
theorem build_checked_no_error_witness :
    create_conservation_heatmap_optimized_checked [⟨100, 300, "conserved"⟩] 0 1000
        ["conserved"] 4 false none
      = Except.ok (create_conservation_heatmap_optimized [⟨100, 300, "conserved"⟩]
          0 1000 ["conserved"] 4 false none) :=
  build_checked_no_error [⟨100, 300, "conserved"⟩] 0 1000 ["conserved"] 4 false none
    (by decide) (by norm_num) (by simp)
